import Mathlib

/-! Verification development.
Verification of the mp3len repository: a shallow embedding of its
ID3v2 tag decoder, MPEG frame header parser and duration estimator,
with theorems settling the specification's claims.

Machine integers are modelled as `Nat`/`Int`; Go's truncated integer
division on `int64` is `Int.tdiv`; fallible Go functions return
`Except`/`Option`, with a Go runtime panic modelled as `none`.
-/

instance {ε α : Type} [DecidableEq ε] [DecidableEq α] : DecidableEq (Except ε α)
  | .error e, .error f => decidable_of_iff (e = f) (by simp)
  | .error _, .ok _ => isFalse (by simp)
  | .ok _, .error _ => isFalse (by simp)
  | .ok a, .ok b => decidable_of_iff (a = b) (by simp)

namespace Mp3len

/-! Section: MPEG frame header parser (package mp3header). -/

/-- Mask `0b11111111_11100000_00000000_00000000` for the frame sync bits. -/
def mpegFlagFrameSync : Nat := 0xFFE00000

def mpegFlagAudioVersion : Nat := 0x00180000

def mpegFlagLayerDesc : Nat := 0x00060000

def mpegFlagBitRate : Nat := 0x0000F000

def mpegFlagSampleFreq : Nat := 0x00000C00

def mpegFlagChannelMode : Nat := 0x000000C0

def Version2_5 : Nat := 0b00
def VersionInvalid : Nat := 0b01
def Version2 : Nat := 0b10
def Version1 : Nat := 0b11

def LayerInvalid : Nat := 0b00
def Layer3 : Nat := 0b01
def Layer2 : Nat := 0b10
def Layer1 : Nat := 0b11

def ChannelModeStereo : Nat := 0b00
def ChannelModeMono : Nat := 0b11

structure MP3Header where
  audioVersion : Nat
  layer : Nat
  bitRate : Int
  sampleFreq : Int
  channelMode : Nat
deriving DecidableEq, Repr

/-- Error outcomes of the mp3header package.  `bitRateIndexPanic` /
`sampleFreqIndexPanic` model the Go runtime panic that an
out-of-bounds slice index would raise (distinct from a returned
`error`). -/
inductive MPError where
  | frameSync
  | invalidVersion
  | invalidLayer
  | invalidBitRateIndex
  | invalidSampleRateIndex
  | bitRateIndexPanic
  | sampleFreqIndexPanic
deriving DecidableEq, Repr

/-- Row `Version1` of `bitRateTopDict`: layer to 16-entry kbps table. -/
def bitRateLayerDictV1 (layer : Nat) : Option (List Int) :=
  if layer = Layer1 then
    some [0, 32, 64, 92, 128, 160, 192, 224, 256, 288, 320, 352, 384, 416, 448, -1]
  else if layer = Layer2 then
    some [0, 32, 48, 56, 64, 80, 96, 112, 128, 160, 192, 224, 256, 320, 384, -1]
  else if layer = Layer3 then
    some [0, 32, 40, 48, 56, 64, 80, 96, 112, 128, 160, 176, 192, 224, 256, -1]
  else none

/-- Row `Version2` of `bitRateTopDict` (also used for `Version2_5`). -/
def bitRateLayerDictV2 (layer : Nat) : Option (List Int) :=
  if layer = Layer1 then
    some [0, 32, 48, 56, 64, 80, 96, 112, 128, 144, 160, 176, 192, 224, 256, -1]
  else if layer = Layer2 then
    some [0, 8, 16, 24, 32, 40, 48, 56, 64, 80, 96, 112, 128, 144, 160, -1]
  else if layer = Layer3 then
    some [0, 8, 16, 24, 32, 40, 48, 56, 64, 80, 96, 112, 128, 144, 160, -1]
  else none

/-- Map `bitRateTopDict`: only `Version1` and `Version2` are keys. -/
def bitRateTopDict (version : Nat) : Option (Nat → Option (List Int)) :=
  if version = Version1 then some bitRateLayerDictV1
  else if version = Version2 then some bitRateLayerDictV2
  else none

def sampleRateDict (version : Nat) : Option (List Int) :=
  if version = Version1 then some [44100, 48000, 32000, -1]
  else if version = Version2 then some [22050, 24000, 16000, -1]
  else if version = Version2_5 then some [11025, 12000, 8000, -1]
  else none

/-- Function `getBitRate`.  The source's bounds check compares the index with
`>` against the table length (16), so index 16 would pass the check
and the subsequent slice access would panic (`bitRateIndexPanic`). -/
def getBitRate (version layer : Nat) (bitRateIndex : Nat) : Except MPError Int :=
  let version := if version = Version2_5 then Version2 else version
  match bitRateTopDict version with
  | none => .error .invalidVersion
  | some layerDict =>
    match layerDict layer with
    | none => .error .invalidLayer
    | some bitRateLookup =>
      if bitRateIndex > bitRateLookup.length then .error .invalidBitRateIndex
      else
        match bitRateLookup[bitRateIndex]? with
        | some v => .ok v
        | none => .error .bitRateIndexPanic

/-- Function `getSampleFreq`, with the same greater-than-length bounds check. -/
def getSampleFreq (version : Nat) (sampleRateIndex : Nat) : Except MPError Int :=
  match sampleRateDict version with
  | none => .error .invalidVersion
  | some sampleRateLookup =>
    if sampleRateIndex > sampleRateLookup.length then .error .invalidSampleRateIndex
    else
      match sampleRateLookup[sampleRateIndex]? with
      | some v => .ok v
      | none => .error .sampleFreqIndexPanic

/-- Function `ParseMP3Header`.  Note the source checks
`headerBits & mpegFlagFrameSync == 0`, i.e. it reports a frame-sync
error only when ALL of the top 11 bits are zero. -/
def ParseMP3Header (headerBits : Nat) : Except MPError MP3Header :=
  if headerBits &&& mpegFlagFrameSync = 0 then .error .frameSync
  else
    let audioVersion := (headerBits &&& mpegFlagAudioVersion) >>> 19
    let layer := (headerBits &&& mpegFlagLayerDesc) >>> 17
    let bitRateIndex := (headerBits &&& mpegFlagBitRate) >>> 12
    let sampleFreqIndex := (headerBits &&& mpegFlagSampleFreq) >>> 10
    let channelMode := (headerBits &&& mpegFlagChannelMode) >>> 6
    match getBitRate audioVersion layer bitRateIndex with
    | .error e => .error e
    | .ok bitRate =>
      match getSampleFreq audioVersion sampleFreqIndex with
      | .error e => .error e
      | .ok sampleFreq =>
        .ok ⟨audioVersion, layer, bitRate, sampleFreq, channelMode⟩

/-! Section: duration estimator (measure.go, `Metadata.calculateDuration`).

`metadata.tagSize` is the value returned by `SkipReader.ReadThrough`,
i.e. the total number of bytes consumed for the ID3 tag (10-byte tag
header + declared tag payload).  The Go source computes, in `int64`
nanoseconds,
`(totalSize - (tagSize+10)) / (bitRate/8) * 1000000`,
then doubles the result when the channel mode is mono.  Division is
Go's truncated integer division (`Int.tdiv`); when the divisor
`bitRate/8` is zero the Go program panics with a runtime
division-by-zero error, modelled as `none`. -/
def calculateDuration (totalSize tagSize bitRate : Int) (channelMode : Nat) :
    Option Int :=
  let divisor := bitRate.tdiv 8
  if divisor = 0 then none
  else
    let duration := ((totalSize - (tagSize + 10)).tdiv divisor) * 1000000
    some (if channelMode = ChannelModeMono then duration * 2 else duration)

/-! Section: sync-safe tag size codec (internal/id3/decoder.go). -/

/-- Function `decodeTagSize`: each byte contributes its low 7 bits
(`value := data[place] & 0b01111111`), big-endian in groups of 7.
The loop over `place = 0..3` is unrolled. -/
def decodeTagSize (data : List Nat) : Nat :=
  (data.getD 0 0 &&& 0b01111111) <<< 21 +
  (data.getD 1 0 &&& 0b01111111) <<< 14 +
  (data.getD 2 0 &&& 0b01111111) <<< 7 +
  (data.getD 3 0 &&& 0b01111111)

/-- Function `encodeTagSize`: `data[place] = uint8(size & 0b01111111); size >>= 7`
for `place = 3..0`, unrolled. -/
def encodeTagSize (size : Nat) : List Nat :=
  [size >>> 21 &&& 0b01111111, size >>> 14 &&& 0b01111111,
   size >>> 7 &&& 0b01111111, size &&& 0b01111111]

/-- Function `calculateID3TagSize` (internal/id3/parse.go, a superseded copy of
the decoder): same big-endian 7-bit packing but WITHOUT masking the
high bit of each byte (`value := data[place]`). -/
def calculateID3TagSize (data : List Nat) : Nat :=
  data.getD 0 0 <<< 21 + data.getD 1 0 <<< 14 +
  data.getD 2 0 <<< 7 + data.getD 3 0

/-! Section: ID3 tag decoder (internal/id3/decoder.go).

The input stream is a `List Nat` of bytes.  `io.ReadFull` of `k`
bytes succeeds when at least `k` bytes remain; reading 1..k-1 bytes
is `io.ErrUnexpectedEOF` and reading 0 is `io.EOF`.  The decoder's
frame loop runs over `io.LimitReader(r, header.size)`, modelled by
restricting the stream to the declared region up front. -/

structure Frame where
  id : List Nat
  flags : Nat
  data : List Nat
deriving DecidableEq, Repr

/-- Check for an uppercase ASCII letter or digit, as the source writes it. -/
def isValidIDChar (c : Nat) : Bool :=
  (65 ≤ c && c ≤ 90) || (48 ≤ c && c ≤ 57)

/-- Value `int(binary.BigEndian.Uint32(header[4:8]))`. -/
def frameDataSize (header : List Nat) : Nat :=
  header.getD 4 0 <<< 24 + header.getD 5 0 <<< 16 +
  header.getD 6 0 <<< 8 + header.getD 7 0

/-- Value `binary.BigEndian.Uint16(header[8:10])`. -/
def frameFlags (header : List Nat) : Nat :=
  header.getD 8 0 <<< 8 + header.getD 9 0

/-- The four possible outcomes of `Decoder.readFrame`:
`(nil, io.EOF)`, `(nil, someError)`, `(nil, nil)` for padding, and
`(frame, nil)`.  `io.ReadFull` returns `io.EOF` when it reads zero
bytes of a non-empty buffer, which happens both on the 10-byte header
read (then `consumed = 0`) and on the frame-data read after a header
was consumed at the exact end of the region with a positive declared
size (then `consumed = 10`); `Decoder.Decode` treats either as a
clean loop break. -/
inductive FrameStep where
  | eof (consumed : Nat)
  | fail
  | padding (rest : List Nat)
  | frame (f : Frame) (rest : List Nat)
deriving DecidableEq, Repr

/-- Function `Decoder.readFrame`, acting on the remaining bytes of the
length-limited tag region. -/
def readFrame (avail : List Nat) : FrameStep :=
  if avail.length = 0 then .eof 0
  else if avail.length < 10 then .fail
  else if avail.take 10 = List.replicate 10 0 then .padding (avail.drop 10)
  else if ((avail.take 10).take 4).all isValidIDChar then
    if (avail.drop 10).length = 0 ∧ 0 < frameDataSize (avail.take 10) then .eof 10
    else if (avail.drop 10).length < frameDataSize (avail.take 10) then .fail
    else
      .frame
        ⟨(avail.take 10).take 4, frameFlags (avail.take 10),
          (avail.drop 10).take (frameDataSize (avail.take 10))⟩
        ((avail.drop 10).drop (frameDataSize (avail.take 10)))
  else .fail

/-- The frame loop of `Decoder.Decode`.  Returns the collected frames,
the number of bytes consumed inside the region (including the 10
bytes of a dangling frame header whose data read hit `io.EOF`), and
whether the loop ended at an all-zero padding header (as opposed to
`io.EOF`).  `fuel` only serves Lean's termination; `decodeFrames`
supplies enough. -/
def decodeFramesAux : Nat → List Nat → Except Unit (List Frame × Nat × Bool)
  | 0, _ => .error ()
  | fuel + 1, avail =>
    match readFrame avail with
    | .eof c => .ok ([], c, false)
    | .fail => .error ()
    | .padding _ => .ok ([], 10, true)
    | .frame f rest =>
      match decodeFramesAux fuel rest with
      | .error () => .error ()
      | .ok (fs, n, p) => .ok (f :: fs, 10 + f.data.length + n, p)

def decodeFrames (avail : List Nat) : Except Unit (List Frame × Nat × Bool) :=
  decodeFramesAux (avail.length + 1) avail

structure Tag where
  version : Nat
  revision : Nat
  flags : Nat
  frames : List Frame
  paddingSize : Int
deriving DecidableEq, Repr

/-- Marker bytes of `"ID3"`. -/
def id3v2Flag : List Nat := [73, 68, 51]

/-- The tag size declared in bytes 6..9 of the stream's 10-byte header. -/
def tagHeaderSize (input : List Nat) : Nat :=
  decodeTagSize ((input.take 10).drop 6)

/-- The declared tag region: the bytes behind the 10-byte header, as
seen through `io.LimitReader(r, header.size)`. -/
def tagRegion (input : List Nat) : List Nat :=
  (input.drop 10).take (tagHeaderSize input)

/-- Function `Decoder.Decode`: read and validate the 10-byte tag header, run
the frame loop over the limited region, compute
`PaddingSize = header.size + lenOfHeader - d.n`, then discard exactly
that many padding bytes (`io.CopyN`), failing on a short read. -/
def decodeTag (input : List Nat) : Except Unit Tag :=
  if input.length < 10 then .error ()
  else if input.take 3 ≠ id3v2Flag then .error ()
  else
    match decodeFrames (tagRegion input) with
    | .error () => .error ()
    | .ok (fs, consumed, _) =>
      if ((tagRegion input).length : Int) - consumed <
          (tagHeaderSize input : Int) + 10 - (10 + consumed) then .error ()
      else
        .ok ⟨input.getD 3 0, input.getD 4 0, input.getD 5 0, fs,
          (tagHeaderSize input : Int) + 10 - (10 + consumed)⟩

/-- On-disk frame size (`Frame.ByteSize` in the source): data length plus the 10-byte
frame header. -/
def FrameSize (f : Frame) : Nat := f.data.length + 10

def sumFrameSize (fs : List Frame) : Nat := (fs.map FrameSize).sum

/-! Section: text decoding (internal/id3/frame.go). -/

/-- Helper for the Go loop that scans `data` for the first zero byte,
with its running index. -/
def zeroTerminusAux : List Nat → Nat → Option Nat
  | [], _ => none
  | c :: rest, i => if c = 0 then some i else zeroTerminusAux rest (i + 1)

/-- Index of the first zero, or 0 when there is none (the `terminus`
variable keeps its initial value). -/
def zeroTerminus (data : List Nat) : Nat :=
  (zeroTerminusAux data 0).getD 0

/-- Function `decodeLatin1Text`: returns `data[:terminus]`. -/
def decodeLatin1Text (data : List Nat) : List Nat :=
  data.take (zeroTerminus data)

/-- Effect of `binary.Read(..., binary.BigEndian, buf16Bit)` with
`buf16Bit := make([]uint16, len(buf)/2)`: consecutive byte pairs,
high byte first; a trailing odd byte is ignored. -/
def toUnitsBE : List Nat → List Nat
  | b0 :: b1 :: rest => ((b0 <<< 8) + b1) :: toUnitsBE rest
  | _ => []

/-- Little-endian variant: low byte first. -/
def toUnitsLE : List Nat → List Nat
  | b0 :: b1 :: rest => (b0 + (b1 <<< 8)) :: toUnitsLE rest
  | _ => []

/-- Go's `unicode/utf16.Decode`: surrogate pairs combine, lone or
ill-formed surrogates become U+FFFD. -/
def utf16Decode : List Nat → List Nat
  | [] => []
  | [r] => if r < 0xD800 ∨ 0xE000 ≤ r then [r] else [0xFFFD]
  | r :: r2 :: rest =>
    if r < 0xD800 ∨ 0xE000 ≤ r then r :: utf16Decode (r2 :: rest)
    else if r < 0xDC00 ∧ 0xDC00 ≤ r2 ∧ r2 < 0xE000 then
      (0x10000 + (r - 0xD800) * 0x400 + (r2 - 0xDC00)) :: utf16Decode rest
    else 0xFFFD :: utf16Decode (r2 :: rest)

/-- Shared tail of `decodeUTF16String` once the 16-bit code units are
read: stop at the first zero unit (`terminus` stays 0 when there is
none), decode, and drop the leading BOM code point by slicing the
rune list from index 1.  Here `none` models the Go runtime panic
raised by `utf8[1:]` when the decoded rune slice is empty. -/
def decodeUTF16Units (units : List Nat) : Option (List Nat) :=
  match utf16Decode (units.take (zeroTerminus units)) with
  | [] => none
  | _ :: rest => some rest

/-- Function `decodeUTF16String`: a payload shorter than 2 bytes or
without a recognised byte-order mark is an error (`none`); otherwise
the byte pairs are read as 16-bit units in the BOM's endianness and
decoded by `decodeUTF16Units`. -/
def decodeUTF16String (buf : List Nat) : Option (List Nat) :=
  if buf.length < 2 then none
  else if buf.getD 0 0 = 0xFE ∧ buf.getD 1 0 = 0xFF then
    decodeUTF16Units (toUnitsBE buf)
  else if buf.getD 0 0 = 0xFF ∧ buf.getD 1 0 = 0xFE then
    decodeUTF16Units (toUnitsLE buf)
  else none

/-- Big-endian serialisation of 16-bit code units, for stating the
UTF-16 properties. -/
def unitsToBytesBE : List Nat → List Nat
  | [] => []
  | u :: rest => (u >>> 8) :: (u % 256) :: unitsToBytesBE rest

/-- Little-endian serialisation of 16-bit code units. -/
def unitsToBytesLE : List Nat → List Nat
  | [] => []
  | u :: rest => (u % 256) :: (u >>> 8) :: unitsToBytesLE rest

/-! Section: helper lemmas. -/

theorem and127_eq_mod (n : Nat) : n &&& 127 = n % 128 :=
  Nat.and_pow_two_sub_one_eq_mod n 7

theorem masked_shift_le (bits m k : Nat) : (bits &&& m) >>> k ≤ m >>> k := by
  simp only [Nat.shiftRight_eq_div_pow]
  exact Nat.div_le_div_right Nat.and_le_right

theorem tdiv8_pos {b : Int} (h : 8 ≤ b) : 0 < b.tdiv 8 := by
  rw [Int.tdiv_eq_ediv (by omega) (by omega)]
  omega

/-! Section: claims about the duration estimator (C1, C2). -/

/-- C1, counterexample.  At `totalBytes = 330175`,
`tagBytesConsumed = 165`, `bitRateKbps = 128`, `channelMode = stereo`,
the claim's duration `(330175-165)/(128000/8)` seconds is exactly
`20625625000` nanoseconds (third conjunct), but the code computes
`20625000000` nanoseconds: it subtracts the 10-byte tag header a
second time and truncates the division at whole milliseconds. -/
theorem c1_duration_claim_counterexample :
    calculateDuration 330175 165 128 ChannelModeStereo = some 20625000000 ∧
    (20625000000 : Int) ≠ 20625625000 ∧
    (330175 - 165) * 1000000000 = 20625625000 * (128 * 1000 / 8) := by
  decide

/-- C1, amended.  For a positive bit rate as produced by a successful
parse (all positive table entries are at least 8 kbps), the estimator
computes `audioBytes = totalBytes - tagBytesConsumed - 10` (the
10-byte tag header is subtracted a second time on top of the consumed
byte count) and returns
`trunc(audioBytes / (bitRateKbps / 8))` milliseconds, expressed in
nanoseconds — millisecond, not microsecond, granularity — doubled
exactly when the channel mode is mono. -/
theorem c1_duration_formula_amended (totalSize tagSize bitRate : Int)
    (channelMode : Nat) (h8 : 8 ≤ bitRate) :
    calculateDuration totalSize tagSize bitRate channelMode =
      some ((if channelMode = ChannelModeMono then 2 else 1) *
        ((totalSize - tagSize - 10).tdiv (bitRate.tdiv 8) * 1000000)) := by
  have hd : bitRate.tdiv 8 ≠ 0 := by
    have := tdiv8_pos h8
    omega
  have harg : totalSize - (tagSize + 10) = totalSize - tagSize - 10 := by ring
  simp only [calculateDuration, if_neg hd, harg]
  by_cases hm : channelMode = ChannelModeMono
  · simp only [if_pos hm]
    exact congrArg some (by ring)
  · simp only [if_neg hm]
    exact congrArg some (by ring)

/-- C1, witness for the amended theorem at the spec's concrete
input. -/
theorem c1_duration_formula_amended_witness :
    calculateDuration 330175 165 128 ChannelModeStereo =
      some ((if ChannelModeStereo = ChannelModeMono then 2 else 1) *
        (((330175 : Int) - 165 - 10).tdiv ((128 : Int).tdiv 8) * 1000000)) :=
  c1_duration_formula_amended 330175 165 128 ChannelModeStereo (by decide)

/-- C2.  The word `0xFFFA0000` (valid sync, MPEG-1 Layer III,
bitrate index 0 = free format) parses successfully with
`bitRate = 0`, and the estimator then performs an integer division by
zero — a Go runtime panic, modelled as `none` — instead of failing
with any `UnsupportedBitRateError` (no such error exists in the
code); likewise for the reserved value `-1`. -/
theorem c2_divide_by_zero_on_free_format :
    ParseMP3Header 0xFFFA0000 =
      .ok ⟨Version1, Layer3, 0, 44100, ChannelModeStereo⟩ ∧
    calculateDuration 330175 165 0 ChannelModeStereo = none ∧
    calculateDuration 330175 165 (-1) ChannelModeStereo = none := by
  decide

/-! Section: claims about the MPEG header parser (C3, C10). -/

/-- C3.  The word `0x80000000` has only 1 of its top 11 bits set
(`0x80000000 >>> 21 = 0x400 ≠ 0x7FF`), so under the claim it must be
rejected with a frame-sync error; but the source checks
`headerBits & mpegFlagFrameSync == 0`, so this word passes the sync
check and parsing instead fails later with an invalid-layer error. -/
theorem c3_frame_sync_check_is_wrong :
    (0x80000000 >>> 21 : Nat) ≠ 0x7FF ∧
    ParseMP3Header 0x80000000 = .error .invalidLayer ∧
    MPError.invalidLayer ≠ MPError.frameSync := by
  decide

theorem getBitRate_isOk :
    ∀ v < 4, ∀ l < 4, ∀ i < 16, v ≠ VersionInvalid → l ≠ LayerInvalid →
      ∃ r, getBitRate v l i = .ok r := by
  have h : ∀ v ∈ ([0, 2, 3] : List Nat), ∀ l ∈ ([1, 2, 3] : List Nat),
      ∀ i ∈ List.range 16, (getBitRate v l i).toOption.isSome = true := by
    decide
  intro v hv l hl i hi hv1 hl0
  have hi' : i ∈ List.range 16 := List.mem_range.mpr hi
  have hvm : v ∈ ([0, 2, 3] : List Nat) := by
    interval_cases v <;> simp_all [VersionInvalid]
  have hlm : l ∈ ([1, 2, 3] : List Nat) := by
    interval_cases l <;> simp_all [LayerInvalid]
  have hsome := h v hvm l hlm i hi'
  cases hg : getBitRate v l i with
  | error e => rw [hg] at hsome; simp [Except.toOption] at hsome
  | ok r => exact ⟨r, rfl⟩

theorem getSampleFreq_isOk :
    ∀ v < 4, ∀ i < 4, v ≠ VersionInvalid →
      ∃ r, getSampleFreq v i = .ok r := by
  have h : ∀ v ∈ ([0, 2, 3] : List Nat), ∀ i ∈ List.range 4,
      (getSampleFreq v i).toOption.isSome = true := by
    decide
  intro v hv i hi hv1
  have hi' : i ∈ List.range 4 := List.mem_range.mpr hi
  have hvm : v ∈ ([0, 2, 3] : List Nat) := by
    interval_cases v <;> simp_all [VersionInvalid]
  have hsome := h v hvm i hi'
  cases hg : getSampleFreq v i with
  | error e => rw [hg] at hsome; simp [Except.toOption] at hsome
  | ok r => exact ⟨r, rfl⟩

/-- C10.  For every header word that passes the code's frame-sync
check and whose version and layer fields are not the reserved values,
the masked bitrate index is below 16 and the masked sample-rate index
below 4, both table lookups are in bounds, and neither the
out-of-range-index error branches (guarded by the off-by-one `>`
comparison against the table length) nor the out-of-bounds slice
accesses behind them are reachable: `ParseMP3Header` returns a
successfully parsed header. -/
theorem c10_index_error_branches_unreachable (bits : Nat)
    (hsync : bits &&& mpegFlagFrameSync ≠ 0)
    (hv : (bits &&& mpegFlagAudioVersion) >>> 19 ≠ VersionInvalid)
    (hl : (bits &&& mpegFlagLayerDesc) >>> 17 ≠ LayerInvalid) :
    (bits &&& mpegFlagBitRate) >>> 12 < 16 ∧
    (bits &&& mpegFlagSampleFreq) >>> 10 < 4 ∧
    (∃ r, getBitRate ((bits &&& mpegFlagAudioVersion) >>> 19)
      ((bits &&& mpegFlagLayerDesc) >>> 17)
      ((bits &&& mpegFlagBitRate) >>> 12) = .ok r) ∧
    (∃ s, getSampleFreq ((bits &&& mpegFlagAudioVersion) >>> 19)
      ((bits &&& mpegFlagSampleFreq) >>> 10) = .ok s) ∧
    (∃ h, ParseMP3Header bits = .ok h) := by
  have hver : (bits &&& mpegFlagAudioVersion) >>> 19 < 4 := by
    have h := masked_shift_le bits mpegFlagAudioVersion 19
    have he : mpegFlagAudioVersion >>> 19 = 3 := by decide
    omega
  have hlay : (bits &&& mpegFlagLayerDesc) >>> 17 < 4 := by
    have h := masked_shift_le bits mpegFlagLayerDesc 17
    have he : mpegFlagLayerDesc >>> 17 = 3 := by decide
    omega
  have hbi : (bits &&& mpegFlagBitRate) >>> 12 < 16 := by
    have h := masked_shift_le bits mpegFlagBitRate 12
    have he : mpegFlagBitRate >>> 12 = 15 := by decide
    omega
  have hsi : (bits &&& mpegFlagSampleFreq) >>> 10 < 4 := by
    have h := masked_shift_le bits mpegFlagSampleFreq 10
    have he : mpegFlagSampleFreq >>> 10 = 3 := by decide
    omega
  obtain ⟨r, hr⟩ := getBitRate_isOk _ hver _ hlay _ hbi hv hl
  obtain ⟨s, hs⟩ := getSampleFreq_isOk _ hver _ hsi hv
  refine ⟨hbi, hsi, ⟨r, hr⟩, ⟨s, hs⟩,
    ⟨⟨(bits &&& mpegFlagAudioVersion) >>> 19, (bits &&& mpegFlagLayerDesc) >>> 17,
      r, s, (bits &&& mpegFlagChannelMode) >>> 6⟩, ?_⟩⟩
  simp only [ParseMP3Header, if_neg hsync, hr, hs]

/-- C10, witness at the spec's concrete header word `0xFFFA9000`
(MPEG-1 Layer III, bitrate index 9, sample-rate index 0). -/
theorem c10_index_error_branches_unreachable_witness :
    (0xFFFA9000 &&& mpegFlagBitRate) >>> 12 < 16 ∧
    (0xFFFA9000 &&& mpegFlagSampleFreq) >>> 10 < 4 ∧
    (∃ r, getBitRate ((0xFFFA9000 &&& mpegFlagAudioVersion) >>> 19)
      ((0xFFFA9000 &&& mpegFlagLayerDesc) >>> 17)
      ((0xFFFA9000 &&& mpegFlagBitRate) >>> 12) = .ok r) ∧
    (∃ s, getSampleFreq ((0xFFFA9000 &&& mpegFlagAudioVersion) >>> 19)
      ((0xFFFA9000 &&& mpegFlagSampleFreq) >>> 10) = .ok s) ∧
    (∃ h, ParseMP3Header 0xFFFA9000 = .ok h) :=
  c10_index_error_branches_unreachable 0xFFFA9000
    (by decide) (by decide) (by decide)

/-! Section: claims about the sync-safe size codec (C4, C5). -/

/-- C4, counterexample.  `268435456 = 2^28` has a bit above bit 27
set, yet its encoding is `{0,0,0,0}`, not `{0x7F,0x7F,0x7F,0x7F}`:
the encoder discards high bits rather than clamping. -/
theorem c4_clamp_counterexample :
    encodeTagSize 268435456 = [0, 0, 0, 0] ∧
    ([0, 0, 0, 0] : List Nat) ≠ [127, 127, 127, 127] ∧
    (268435455 : Nat) < 268435456 := by
  decide

/-- C4, amended.  Decoding the sync-safe encoding of any 28-bit value
yields it back, the concrete byte/value pairs hold, and encoding the
maximal `uint32` value `4294967295` yields `{0x7F,0x7F,0x7F,0x7F}`;
but in general encoding a value with bits above bit 27 set does not
clamp — it encodes the value's low 28 bits (`v mod 2^28`). -/
theorem c4_syncsafe_roundtrip_amended :
    (∀ v : Nat, v < 268435456 → decodeTagSize (encodeTagSize v) = v) ∧
    decodeTagSize [0x00, 0x00, 0x02, 0x01] = 257 ∧
    encodeTagSize 257 = [0x00, 0x00, 0x02, 0x01] ∧
    decodeTagSize [0x7F, 0x7F, 0x7F, 0x7F] = 268435455 ∧
    encodeTagSize 268435455 = [0x7F, 0x7F, 0x7F, 0x7F] ∧
    encodeTagSize 4294967295 = [0x7F, 0x7F, 0x7F, 0x7F] ∧
    (∀ v : Nat, encodeTagSize v = encodeTagSize (v % 268435456)) := by
  refine ⟨?_, by decide, by decide, by decide, by decide, by decide, ?_⟩
  · intro v hv
    simp only [encodeTagSize, decodeTagSize, List.getD_cons_zero,
      List.getD_cons_succ, and127_eq_mod, Nat.shiftRight_eq_div_pow,
      Nat.shiftLeft_eq]
    norm_num
    omega
  · intro v
    simp only [encodeTagSize, and127_eq_mod, Nat.shiftRight_eq_div_pow,
      List.cons.injEq, and_true]
    norm_num
    omega

/-- C4, witness for the amended theorem: the round-trip at `v = 257`. -/
theorem c4_syncsafe_roundtrip_amended_witness :
    (257 : Nat) < 268435456 ∧ decodeTagSize (encodeTagSize 257) = 257 :=
  ⟨by decide, c4_syncsafe_roundtrip_amended.1 257 (by decide)⟩

/-- C5.  The decoder's sync-safe decode (`decodeTagSize`) uses only
the low 7 bits of each of the four size bytes — masking each byte
with `0x7F` first changes nothing — and its result never exceeds
`268435455 = 2^28 - 1`, whatever the input bytes are. -/
theorem c5_decode_ignores_high_bits (b0 b1 b2 b3 : Nat) :
    decodeTagSize [b0, b1, b2, b3] =
      decodeTagSize [b0 &&& 0x7F, b1 &&& 0x7F, b2 &&& 0x7F, b3 &&& 0x7F] ∧
    decodeTagSize [b0, b1, b2, b3] ≤ 268435455 := by
  simp only [decodeTagSize, List.getD_cons_zero, List.getD_cons_succ,
    and127_eq_mod, Nat.shiftLeft_eq]
  norm_num
  omega

/-! Section: structural lemmas about the frame loop. -/

theorem readFrame_frame_len {avail : List Nat} {f : Frame} {rest : List Nat}
    (h : readFrame avail = .frame f rest) :
    10 ≤ avail.length ∧ avail.length = 10 + f.data.length + rest.length := by
  unfold readFrame at h
  split_ifs at h with h0 h10 hz hid heof hlen
  injection h with hf hr
  subst hf
  subst hr
  simp only [List.length_drop, List.length_take]
  have hsz : frameDataSize (avail.take 10) ≤ avail.length - 10 := by
    simp only [List.length_drop] at hlen
    omega
  constructor
  · omega
  · omega

theorem readFrame_padding_len {avail : List Nat} {rest : List Nat}
    (h : readFrame avail = .padding rest) :
    10 ≤ avail.length ∧ rest = avail.drop 10 ∧
      avail.take 10 = List.replicate 10 0 := by
  unfold readFrame at h
  split_ifs at h with h0 h10 hz hid heof hlen
  injection h with hr
  exact ⟨by omega, hr.symm, hz⟩

theorem readFrame_eof_len {avail : List Nat} {c : Nat}
    (h : readFrame avail = .eof c) :
    (c = 0 ∨ c = 10) ∧ c ≤ avail.length := by
  unfold readFrame at h
  split_ifs at h with h0 h10 hz hid heof hlen
  · injection h with hc
    exact ⟨Or.inl hc.symm, by omega⟩
  · injection h with hc
    exact ⟨Or.inr hc.symm, by omega⟩

theorem decodeFramesAux_fuel_irrel :
    ∀ (f1 : Nat) (avail : List Nat) (f2 : Nat),
      avail.length < f1 → avail.length < f2 →
      decodeFramesAux f1 avail = decodeFramesAux f2 avail := by
  intro f1
  induction f1 with
  | zero => intro avail f2 h1 _; omega
  | succ m ih =>
    intro avail f2 h1 h2
    cases f2 with
    | zero => omega
    | succ k =>
      cases hr : readFrame avail with
      | eof c => simp only [decodeFramesAux, hr]
      | fail => simp only [decodeFramesAux, hr]
      | padding rest => simp only [decodeFramesAux, hr]
      | frame f rest =>
        have hlen := readFrame_frame_len hr
        simp only [decodeFramesAux, hr]
        rw [ih rest k (by omega) (by omega)]

theorem decodeFrames_eof {avail : List Nat} {c : Nat}
    (h : readFrame avail = .eof c) :
    decodeFrames avail = .ok ([], c, false) := by
  unfold decodeFrames
  simp only [decodeFramesAux, h]

theorem decodeFrames_padding {avail : List Nat} {rest : List Nat}
    (h : readFrame avail = .padding rest) :
    decodeFrames avail = .ok ([], 10, true) := by
  unfold decodeFrames
  simp only [decodeFramesAux, h]

theorem decodeFrames_fail {avail : List Nat} (h : readFrame avail = .fail) :
    decodeFrames avail = .error () := by
  unfold decodeFrames
  simp only [decodeFramesAux, h]

theorem decodeFramesAux_consumed :
    ∀ (fuel : Nat) (avail : List Nat) (fs : List Frame) (n : Nat) (p : Bool),
      decodeFramesAux fuel avail = .ok (fs, n, p) →
      (n = sumFrameSize fs ∨ n = sumFrameSize fs + 10) ∧
      (p = true → n = sumFrameSize fs + 10) ∧ n ≤ avail.length := by
  intro fuel
  induction fuel with
  | zero => intro avail fs n p h; exact Except.noConfusion h
  | succ m ih =>
    intro avail fs n p h
    cases hr : readFrame avail with
    | eof c =>
      simp only [decodeFramesAux, hr, Except.ok.injEq, Prod.mk.injEq] at h
      obtain ⟨rfl, rfl, rfl⟩ := h
      have hc := readFrame_eof_len hr
      refine ⟨?_, by simp, hc.2⟩
      simp only [sumFrameSize, List.map_nil, List.sum_nil]
      omega
    | fail =>
      simp only [decodeFramesAux, hr] at h
      exact Except.noConfusion h
    | padding rest =>
      simp only [decodeFramesAux, hr, Except.ok.injEq, Prod.mk.injEq] at h
      obtain ⟨rfl, rfl, rfl⟩ := h
      have hp := readFrame_padding_len hr
      refine ⟨Or.inr (by simp [sumFrameSize]), by simp [sumFrameSize], by omega⟩
    | frame f rest =>
      simp only [decodeFramesAux, hr] at h
      cases hrec : decodeFramesAux m rest with
      | error e =>
        cases e
        simp only [hrec] at h
        exact Except.noConfusion h
      | ok t =>
        obtain ⟨fs', n', p'⟩ := t
        simp only [hrec, Except.ok.injEq, Prod.mk.injEq] at h
        obtain ⟨rfl, rfl, rfl⟩ := h
        have hih := ih rest fs' n' p' hrec
        have hlen := readFrame_frame_len hr
        simp only [sumFrameSize, FrameSize, List.map_cons, List.sum_cons] at hih ⊢
        obtain ⟨hor, hpad, hle⟩ := hih
        refine ⟨?_, ?_, by omega⟩
        · cases hor with
          | inl h1 => exact Or.inl (by omega)
          | inr h1 => exact Or.inr (by omega)
        · intro hp
          have := hpad hp
          omega

theorem decodeFrames_consumed {avail : List Nat} {fs : List Frame} {n : Nat}
    {p : Bool} (h : decodeFrames avail = .ok (fs, n, p)) :
    (n = sumFrameSize fs ∨ n = sumFrameSize fs + 10) ∧
    (p = true → n = sumFrameSize fs + 10) ∧ n ≤ avail.length :=
  decodeFramesAux_consumed _ avail fs n p h

/-! Section: claims about the decoder (C6, C7, C8). -/

/-- C6, counterexample.  Two tags whose declared size is 10 decode
successfully with no frames and `PaddingSize = 0`, so
`sum(FrameSize) + paddingSize = 0 ≠ 10 = header.size`: one whose
region is 10 zero bytes (the terminating all-zero padding header is
counted in neither term), and one whose region is a single `"TIT2"`
frame header declaring 5 data bytes beyond the region end (the data
read returns `(0, io.EOF)`, `Decode` breaks cleanly, and the dangling
header's 10 bytes are counted in neither term). -/
theorem c6_padding_sum_counterexample :
    decodeTag ([73, 68, 51, 3, 0, 0, 0, 0, 0, 10] ++ List.replicate 10 0) =
      .ok ⟨3, 0, 0, [], 0⟩ ∧
    tagHeaderSize ([73, 68, 51, 3, 0, 0, 0, 0, 0, 10] ++ List.replicate 10 0) = 10 ∧
    decodeTag ([73, 68, 51, 3, 0, 0, 0, 0, 0, 10] ++
      [84, 73, 84, 50, 0, 0, 0, 5, 0, 0]) = .ok ⟨3, 0, 0, [], 0⟩ ∧
    tagHeaderSize ([73, 68, 51, 3, 0, 0, 0, 0, 0, 10] ++
      [84, 73, 84, 50, 0, 0, 0, 5, 0, 0]) = 10 ∧
    (sumFrameSize [] : Int) + 0 ≠ (10 : Int) := by
  decide

/-- C6, amended.  After a fully successful decode, the sum of the
frames' on-disk sizes plus the tag's `paddingSize` falls short of the
header's declared size by exactly the frame loop's terminal overhead
`n - sum(FrameSize)`, where `n` is the loop's consumed byte count:
the overhead is 0 when the loop ended with a clean `io.EOF` at a
frame boundary (then the equality of the original claim holds), and
10 when the loop's final read consumed a 10-byte header belonging to
no frame — an all-zero padding header, or a frame header at the exact
end of the region whose declared data size is positive (data read hit
`io.EOF`); the overhead is always 10 when the loop ended at an
all-zero padding header. -/
theorem c6_padding_sum_amended (input : List Nat) (tag : Tag) (fs : List Frame)
    (n : Nat) (p : Bool)
    (h : decodeTag input = .ok tag)
    (hdf : decodeFrames (tagRegion input) = .ok (fs, n, p)) :
    tag.frames = fs ∧
    (n = sumFrameSize fs ∨ n = sumFrameSize fs + 10) ∧
    (p = true → n = sumFrameSize fs + 10) ∧
    (n = sumFrameSize fs →
      (sumFrameSize fs : Int) + tag.paddingSize = (tagHeaderSize input : Int)) ∧
    (n = sumFrameSize fs + 10 →
      (sumFrameSize fs : Int) + tag.paddingSize + 10 = (tagHeaderSize input : Int)) := by
  unfold decodeTag at h
  by_cases h1 : input.length < 10
  · rw [if_pos h1] at h
    exact Except.noConfusion h
  rw [if_neg h1] at h
  by_cases h2 : input.take 3 = id3v2Flag
  · rw [if_neg (not_not_intro h2)] at h
    simp only [hdf] at h
    split_ifs at h with h3
    injection h with h4
    obtain ⟨hor, hpad, hle⟩ := decodeFrames_consumed hdf
    subst h4
    refine ⟨rfl, hor, hpad, ?_, ?_⟩
    · intro hn
      show (sumFrameSize fs : Int) +
        ((tagHeaderSize input : Int) + 10 - (10 + (n : Int))) =
        (tagHeaderSize input : Int)
      omega
    · intro hn
      show (sumFrameSize fs : Int) +
        ((tagHeaderSize input : Int) + 10 - (10 + (n : Int))) + 10 =
        (tagHeaderSize input : Int)
      omega
  · rw [if_pos h2] at h
    exact Except.noConfusion h

/-- C6, witness for the amended theorem at the dangling-header input:
the loop consumed `n = 10` bytes for no frame, and the decoded tag's
frame-size sum plus padding equals the declared size minus 10. -/
theorem c6_padding_sum_amended_witness :
    (Tag.mk 3 0 0 [] 0).frames = [] ∧
    ((10 : Nat) = sumFrameSize [] ∨ (10 : Nat) = sumFrameSize [] + 10) ∧
    (false = true → (10 : Nat) = sumFrameSize [] + 10) ∧
    ((10 : Nat) = sumFrameSize [] →
      (sumFrameSize [] : Int) + (Tag.mk 3 0 0 [] 0).paddingSize =
        (tagHeaderSize ([73, 68, 51, 3, 0, 0, 0, 0, 0, 10] ++
          [84, 73, 84, 50, 0, 0, 0, 5, 0, 0]) : Int)) ∧
    ((10 : Nat) = sumFrameSize [] + 10 →
      (sumFrameSize [] : Int) + (Tag.mk 3 0 0 [] 0).paddingSize + 10 =
        (tagHeaderSize ([73, 68, 51, 3, 0, 0, 0, 0, 0, 10] ++
          [84, 73, 84, 50, 0, 0, 0, 5, 0, 0]) : Int)) :=
  c6_padding_sum_amended
    ([73, 68, 51, 3, 0, 0, 0, 0, 0, 10] ++ [84, 73, 84, 50, 0, 0, 0, 5, 0, 0])
    ⟨3, 0, 0, [], 0⟩ [] 10 false (by decide) (by decide)

/-- C7.  At any point of the frame loop where the next 10 readable
bytes are all zero, `readFrame` yields no frame (a padding signal,
not an error), the loop terminates there collecting no further
frames, and when this happens as the first read of the region the
decoded tag has an empty frame list. -/
theorem c7_all_zero_header_terminates (avail input : List Nat) (tag : Tag)
    (h10 : 10 ≤ avail.length)
    (hz : avail.take 10 = List.replicate 10 0) :
    readFrame avail = .padding (avail.drop 10) ∧
    decodeFrames avail = .ok ([], 10, true) ∧
    (decodeTag input = .ok tag → tagRegion input = avail → tag.frames = []) := by
  have hrf : readFrame avail = .padding (avail.drop 10) := by
    unfold readFrame
    rw [if_neg (by omega), if_neg (by omega), if_pos hz]
  have hdf := decodeFrames_padding hrf
  refine ⟨hrf, hdf, ?_⟩
  intro hdt hreg
  unfold decodeTag at hdt
  by_cases h1 : input.length < 10
  · rw [if_pos h1] at hdt
    exact Except.noConfusion hdt
  rw [if_neg h1] at hdt
  by_cases h2 : input.take 3 = id3v2Flag
  · rw [if_neg (not_not_intro h2), hreg] at hdt
    simp only [hdf] at hdt
    split_ifs at hdt with h3
    injection hdt with h4
    subst h4
    rfl
  · rw [if_pos h2] at hdt
    exact Except.noConfusion hdt

/-- C7, witness: a region that is pure padding (10 zero bytes) as the
first read, inside the concrete stream of the C6 counterexample. -/
theorem c7_all_zero_header_terminates_witness :
    readFrame (List.replicate 10 0) = .padding ((List.replicate 10 0).drop 10) ∧
    decodeFrames (List.replicate 10 0) = .ok ([], 10, true) ∧
    (decodeTag ([73, 68, 51, 3, 0, 0, 0, 0, 0, 10] ++ List.replicate 10 0) =
        .ok ⟨3, 0, 0, [], 0⟩ →
      tagRegion ([73, 68, 51, 3, 0, 0, 0, 0, 0, 10] ++ List.replicate 10 0) =
        List.replicate 10 0 →
      (Tag.mk 3 0 0 [] 0).frames = []) :=
  c7_all_zero_header_terminates (List.replicate 10 0)
    ([73, 68, 51, 3, 0, 0, 0, 0, 0, 10] ++ List.replicate 10 0)
    ⟨3, 0, 0, [], 0⟩ (by decide) (by decide)

/-- C8.  At any point of the frame loop where the next 10 readable
bytes are not all zero and some of the first 4 ID bytes is not an
uppercase ASCII letter or digit, `readFrame` fails, the whole frame
loop fails, and the whole tag decode returns an error and no Tag
value. -/
theorem c8_invalid_frame_id_aborts (avail input : List Nat)
    (h10 : 10 ≤ avail.length)
    (hnz : avail.take 10 ≠ List.replicate 10 0)
    (hbad : ((avail.take 10).take 4).all isValidIDChar = false) :
    readFrame avail = .fail ∧ decodeFrames avail = .error () ∧
    (tagRegion input = avail → decodeTag input = .error ()) := by
  have hrf : readFrame avail = .fail := by
    unfold readFrame
    rw [if_neg (by omega), if_neg (by omega), if_neg hnz,
      if_neg (by simp [hbad])]
  have hdf := decodeFrames_fail hrf
  refine ⟨hrf, hdf, ?_⟩
  intro hreg
  unfold decodeTag
  by_cases h1 : input.length < 10
  · rw [if_pos h1]
  · rw [if_neg h1]
    by_cases h2 : input.take 3 = id3v2Flag
    · rw [if_neg (not_not_intro h2), hreg]
      simp only [hdf]
    · rw [if_pos h2]

/-- C8, witness: a tag whose first frame header carries the lowercase
ID `"abcd"`. -/
theorem c8_invalid_frame_id_aborts_witness :
    readFrame ([97, 98, 99, 100, 0, 0, 0, 0, 0, 0] ++ List.replicate 10 0) = .fail ∧
    decodeFrames ([97, 98, 99, 100, 0, 0, 0, 0, 0, 0] ++ List.replicate 10 0) =
      .error () ∧
    (tagRegion ([73, 68, 51, 3, 0, 0, 0, 0, 0, 20] ++
        ([97, 98, 99, 100, 0, 0, 0, 0, 0, 0] ++ List.replicate 10 0)) =
        ([97, 98, 99, 100, 0, 0, 0, 0, 0, 0] ++ List.replicate 10 0) →
      decodeTag ([73, 68, 51, 3, 0, 0, 0, 0, 0, 20] ++
        ([97, 98, 99, 100, 0, 0, 0, 0, 0, 0] ++ List.replicate 10 0)) = .error ()) :=
  c8_invalid_frame_id_aborts
    ([97, 98, 99, 100, 0, 0, 0, 0, 0, 0] ++ List.replicate 10 0)
    ([73, 68, 51, 3, 0, 0, 0, 0, 0, 20] ++
      ([97, 98, 99, 100, 0, 0, 0, 0, 0, 0] ++ List.replicate 10 0))
    (by decide) (by decide) (by decide)

/-! Section: lemmas about text decoding. -/

theorem zeroTerminusAux_append (pre post : List Nat) (hp : ¬ 0 ∈ pre) :
    ∀ i, zeroTerminusAux (pre ++ 0 :: post) i = some (i + pre.length) := by
  induction pre with
  | nil => intro i; simp [zeroTerminusAux]
  | cons c cs ih =>
    intro i
    simp only [List.mem_cons, not_or] at hp
    obtain ⟨hc, hcs⟩ := hp
    have hc' : ¬ c = 0 := fun h => hc h.symm
    simp only [List.cons_append, zeroTerminusAux, if_neg hc', List.append_eq]
    rw [ih hcs (i + 1)]
    have : i + 1 + cs.length = i + (c :: cs).length := by
      simp only [List.length_cons]
      omega
    rw [this]

theorem zeroTerminusAux_none (data : List Nat) (hp : ¬ 0 ∈ data) :
    ∀ i, zeroTerminusAux data i = none := by
  induction data with
  | nil => intro i; rfl
  | cons c cs ih =>
    intro i
    simp only [List.mem_cons, not_or] at hp
    obtain ⟨hc, hcs⟩ := hp
    have hc' : ¬ c = 0 := fun h => hc h.symm
    simp only [zeroTerminusAux, if_neg hc']
    exact ih hcs (i + 1)

theorem zeroTerminus_append (pre post : List Nat) (hp : ¬ 0 ∈ pre) :
    zeroTerminus (pre ++ 0 :: post) = pre.length := by
  unfold zeroTerminus
  rw [zeroTerminusAux_append pre post hp 0]
  simp

theorem zeroTerminus_of_no_zero (data : List Nat) (hp : ¬ 0 ∈ data) :
    zeroTerminus data = 0 := by
  unfold zeroTerminus
  rw [zeroTerminusAux_none data hp 0]
  rfl

theorem toUnitsBE_unitsToBytesBE (us : List Nat) :
    toUnitsBE (unitsToBytesBE us) = us := by
  induction us with
  | nil => rfl
  | cons u rest ih =>
    simp only [unitsToBytesBE, toUnitsBE, ih]
    congr 1
    rw [Nat.shiftRight_eq_div_pow, Nat.shiftLeft_eq]
    omega

theorem toUnitsLE_unitsToBytesLE (us : List Nat) :
    toUnitsLE (unitsToBytesLE us) = us := by
  induction us with
  | nil => rfl
  | cons u rest ih =>
    simp only [unitsToBytesLE, toUnitsLE, ih]
    congr 1
    rw [Nat.shiftRight_eq_div_pow, Nat.shiftLeft_eq]
    omega

theorem unitsToBytesBE_length (us : List Nat) :
    (unitsToBytesBE us).length = 2 * us.length := by
  induction us with
  | nil => rfl
  | cons u rest ih =>
    simp only [unitsToBytesBE, List.length_cons, ih]
    omega

theorem unitsToBytesLE_length (us : List Nat) :
    (unitsToBytesLE us).length = 2 * us.length := by
  induction us with
  | nil => rfl
  | cons u rest ih =>
    simp only [unitsToBytesLE, List.length_cons, ih]
    omega

theorem utf16Decode_bom_cons (us : List Nat) :
    utf16Decode (0xFEFF :: us) = 0xFEFF :: utf16Decode us := by
  cases us with
  | nil => decide
  | cons r rest =>
    simp only [utf16Decode]
    rw [if_pos (by decide : (0xFEFF : Nat) < 0xD800 ∨ (0xE000 : Nat) ≤ 0xFEFF)]

theorem decodeUTF16Units_terminated (us vs : List Nat) (hus : ¬ 0 ∈ us) :
    decodeUTF16Units ((0xFEFF :: us) ++ 0 :: vs) = some (utf16Decode us) := by
  have hmem : ¬ 0 ∈ (0xFEFF :: us) := by
    simp only [List.mem_cons, not_or]
    exact ⟨by decide, hus⟩
  unfold decodeUTF16Units
  rw [zeroTerminus_append _ _ hmem, List.take_left, utf16Decode_bom_cons]

theorem decodeUTF16Units_unterminated (us : List Nat) (hus : ¬ 0 ∈ us) :
    decodeUTF16Units (0xFEFF :: us) = none := by
  have hmem : ¬ 0 ∈ (0xFEFF :: us) := by
    simp only [List.mem_cons, not_or]
    exact ⟨by decide, hus⟩
  unfold decodeUTF16Units
  rw [zeroTerminus_of_no_zero _ hmem]
  rfl

theorem unitsToBytesBE_bom (tl : List Nat) :
    unitsToBytesBE (0xFEFF :: tl) = 0xFE :: 0xFF :: unitsToBytesBE tl := by
  have h1 : (0xFEFF : Nat) >>> 8 = 0xFE := by decide
  have h2 : (0xFEFF : Nat) % 256 = 0xFF := by decide
  simp only [unitsToBytesBE, h1, h2]

theorem unitsToBytesLE_bom (tl : List Nat) :
    unitsToBytesLE (0xFEFF :: tl) = 0xFF :: 0xFE :: unitsToBytesLE tl := by
  have h1 : (0xFEFF : Nat) >>> 8 = 0xFE := by decide
  have h2 : (0xFEFF : Nat) % 256 = 0xFF := by decide
  simp only [unitsToBytesLE, h1, h2]

/-! Section: claims about text decoding (C9). -/

/-- C9, counterexample.  An unterminated Latin-1 payload (no NUL
byte) decodes to the empty string, not to the whole remainder: the
`terminus` variable keeps its initial value 0.  Likewise an
unterminated UTF-16 payload with a valid big-endian BOM does not
decode to the remaining text; the decoder panics (`none`). -/
theorem c9_text_decoding_counterexample :
    decodeLatin1Text [65] = [] ∧ ([] : List Nat) ≠ [65] ∧
    decodeUTF16String [0xFE, 0xFF, 0x00, 0x41] = none ∧
    (none : Option (List Nat)) ≠ some [0x41] := by
  decide

/-- C9, amended.  A Latin-1 payload decodes to the bytes before its
first NUL, but an unterminated one decodes to the empty string (not
the whole remainder).  A UTF-16 payload with a valid BOM (either
endianness) decodes to the code units before the first zero unit with
the leading BOM code point dropped, but when no zero unit is present
the result is empty and slicing off the BOM panics (`none`) instead
of consuming to the end. -/
theorem c9_text_decoding_amended :
    (∀ pre post : List Nat, ¬ 0 ∈ pre →
      decodeLatin1Text (pre ++ 0 :: post) = pre) ∧
    (∀ data : List Nat, ¬ 0 ∈ data → decodeLatin1Text data = []) ∧
    (∀ us vs : List Nat, ¬ 0 ∈ us →
      decodeUTF16String (unitsToBytesBE ((0xFEFF :: us) ++ 0 :: vs)) =
        some (utf16Decode us)) ∧
    (∀ us vs : List Nat, ¬ 0 ∈ us →
      decodeUTF16String (unitsToBytesLE ((0xFEFF :: us) ++ 0 :: vs)) =
        some (utf16Decode us)) ∧
    (∀ us : List Nat, ¬ 0 ∈ us →
      decodeUTF16String (unitsToBytesBE (0xFEFF :: us)) = none) := by
  refine ⟨?_, ?_, ?_, ?_, ?_⟩
  · intro pre post hp
    unfold decodeLatin1Text
    rw [zeroTerminus_append _ _ hp, List.take_left]
  · intro data hp
    unfold decodeLatin1Text
    rw [zeroTerminus_of_no_zero _ hp]
    rfl
  · intro us vs hus
    rw [show (0xFEFF :: us) ++ 0 :: vs = 0xFEFF :: (us ++ 0 :: vs) from rfl,
      unitsToBytesBE_bom]
    unfold decodeUTF16String
    rw [if_neg (by simp), if_pos (by exact ⟨rfl, rfl⟩)]
    rw [show (0xFE : Nat) :: 0xFF :: unitsToBytesBE (us ++ 0 :: vs) =
      unitsToBytesBE (0xFEFF :: (us ++ 0 :: vs)) from (unitsToBytesBE_bom _).symm]
    rw [toUnitsBE_unitsToBytesBE]
    exact decodeUTF16Units_terminated us vs hus
  · intro us vs hus
    rw [show (0xFEFF :: us) ++ 0 :: vs = 0xFEFF :: (us ++ 0 :: vs) from rfl,
      unitsToBytesLE_bom]
    unfold decodeUTF16String
    rw [if_neg (by simp), if_neg (by simp), if_pos (by exact ⟨rfl, rfl⟩)]
    rw [show (0xFF : Nat) :: 0xFE :: unitsToBytesLE (us ++ 0 :: vs) =
      unitsToBytesLE (0xFEFF :: (us ++ 0 :: vs)) from (unitsToBytesLE_bom _).symm]
    rw [toUnitsLE_unitsToBytesLE]
    exact decodeUTF16Units_terminated us vs hus
  · intro us hus
    rw [unitsToBytesBE_bom]
    unfold decodeUTF16String
    rw [if_neg (by simp), if_pos (by exact ⟨rfl, rfl⟩)]
    rw [show (0xFE : Nat) :: 0xFF :: unitsToBytesBE us =
      unitsToBytesBE (0xFEFF :: us) from (unitsToBytesBE_bom _).symm]
    rw [toUnitsBE_unitsToBytesBE]
    exact decodeUTF16Units_unterminated us hus

/-- C9, witness: the amended theorem applied to the Latin-1 payload
`"F" "o" "o" NUL` and to the big-endian UTF-16 payload carrying the
single unit `0x41` before its terminator. -/
theorem c9_text_decoding_amended_witness :
    decodeLatin1Text ([70, 111, 111] ++ 0 :: []) = [70, 111, 111] ∧
    decodeUTF16String (unitsToBytesBE ((0xFEFF :: [0x41]) ++ 0 :: [])) =
      some (utf16Decode [0x41]) :=
  ⟨c9_text_decoding_amended.1 [70, 111, 111] [] (by decide),
   c9_text_decoding_amended.2.2.1 [0x41] [] (by decide)⟩

end Mp3len

example : Mp3len.ParseMP3Header 0xFFFA9000 =
    .ok ⟨3, 1, 128, 44100, 0⟩ := by decide

example : Mp3len.ParseMP3Header 0x80000000 =
    .error .invalidLayer := by decide

example : ((-7 : Int).tdiv 2) = -3 := by decide

example : Mp3len.calculateDuration 330175 165 128 0 = some 20625000000 := by decide

example : Mp3len.calculateDuration 330175 165 0 0 = none := by decide

example : Mp3len.decodeTagSize [0, 0, 2, 1] = 257 := by decide

example : Mp3len.encodeTagSize 257 = [0, 0, 2, 1] := by decide

example : Mp3len.encodeTagSize 268435455 = [127, 127, 127, 127] := by decide

example : Mp3len.encodeTagSize 4294967295 = [127, 127, 127, 127] := by decide

example : Mp3len.encodeTagSize 268435456 = [0, 0, 0, 0] := by decide

example : Mp3len.calculateID3TagSize [128, 0, 0, 0] = 268435456 := by decide
